import Mathlib

set_option maxRecDepth 100000

/-!
Verification development for a Vite SWC transform plugin: a disk-backed,
version-gated transform cache plus a per-file transform pipeline that
selects a dialect parser, invokes an opaque single-file transformer,
scrapes line/column data out of structured compile errors, and
conditionally injects live-reload (react-refresh) bootstrap code while
keeping the source-map line offsets consistent.

The plugin's module-level state (the in-memory cache `Map`, `root`,
`cachePath`) is threaded explicitly; the opaque collaborators (the swc
transformer, `JSON.parse`, Node's `path.relative`) are parameters.
-/

namespace PluginModel

/-! ## Generic string/list helpers (JS semantics) -/

/-- Association-list lookup, modelling `Map.get`. -/
def mapGet {α : Type} : List (String × α) → String → Option α
  | [], _ => none
  | (k, v) :: rest, key => if k = key then some v else mapGet rest key

/-- Association-list update, modelling `Map.set` (replaces an existing key). -/
def mapSet {α : Type} : List (String × α) → String → α → List (String × α)
  | [], key, v => [(key, v)]
  | (k, w) :: rest, key, v =>
    if k = key then (key, v) :: rest else (k, w) :: mapSet rest key v

/-- Boolean list-prefix test. -/
def isPrefixOfL : List Char → List Char → Bool
  | [], _ => true
  | _ :: _, [] => false
  | a :: as, b :: bs => a == b && isPrefixOfL as bs

/-- Substring scan: does `pat` occur in the list? (JS `String.includes`.) -/
def containsSub (pat : List Char) : List Char → Bool
  | [] => isPrefixOfL pat []
  | c :: rest => isPrefixOfL pat (c :: rest) || containsSub pat rest

/-- JS `s.includes(pat)`. -/
def strContains (s pat : String) : Bool := containsSub pat.data s.data

/-- JS `s.endsWith(suff)`. -/
def strEndsWith (s suff : String) : Bool :=
  isPrefixOfL suff.data.reverse s.data.reverse

/-- `replace(/\x2f/g, "|")`: every slash becomes a pipe (single-char global
regex replace is a character map). -/
def pipeSlash (l : List Char) : List Char :=
  l.map (fun c => if c = '/' then '|' else c)

/-! ## Data model (from the source's type declarations) -/

/-- The subset of a `SourceMapPayload` the plugin reads or writes: only the
`mappings` string is ever touched. -/
structure SourceMapPayload where
  mappings : String
  deriving DecidableEq, Repr

/-- `type CacheEntry = \x7b input: string; code: string; map: SourceMapPayload \x7d`. -/
structure CacheEntry where
  input : String
  code : String
  map : SourceMapPayload
  deriving DecidableEq, Repr

/-- The parser configuration chosen per file extension
(`\x7b syntax: "typescript", tsx \x7d` or `\x7b syntax: "ecmascript", jsx \x7d`). -/
inductive ParserConfig where
  | typescript (tsx : Bool)
  | ecmascript (jsx : Bool)
  deriving DecidableEq, Repr

/-- The options object passed to the opaque swc `transform` call. -/
structure SwcOptions where
  filename : String
  swcrc : Bool
  configFile : Bool
  sourceMaps : Bool
  target : String
  parserCfg : ParserConfig
  useDefineForClassFields : Bool
  refresh : Bool
  development : Bool
  useBuiltins : Bool
  runtime : String
  deriving DecidableEq, Repr

/-- The opaque transformer's successful output (`code` plus its parsed
source-map payload); also the shape the transform hook returns. -/
structure Output where
  code : String
  map : SourceMapPayload
  deriving DecidableEq, Repr

/-- A failure thrown by the opaque transformer (`e.message`). -/
structure SwcError where
  message : String
  deriving DecidableEq, Repr

/-- The error rethrown by the transform hook, after best-effort enrichment
with `e.line` / `e.column` (both strings, regex capture groups). -/
structure ThrownError where
  message : String
  line : Option String
  column : Option String
  deriving DecidableEq, Repr

/-- `const runtimePublicPath = "/@react-refresh"`. -/
def runtimePublicPath : String := "/@react-refresh"

/-! ## Transform pipeline pieces -/

/-- Dialect selection by extension (source lines 98-104). -/
def parserFor (id : String) : Option ParserConfig :=
  if strEndsWith id ".tsx" then some (.typescript true)
  else if strEndsWith id ".ts" then some (.typescript false)
  else if strEndsWith id ".jsx" then some (.ecmascript true)
  else none

/-- The cache key: project-relative path with slashes flattened to pipes,
an `-srr` suffix when compiling for the server target, then `.json`
(source lines 108-110). -/
def fileCacheKey (rel : String) (ssr : Bool) : String :=
  String.mk (pipeSlash rel.data) ++ (if ssr then "-srr" else "") ++ ".json"

/-- The swc options built by the transform hook (source lines 118-136):
`refresh` is enabled exactly when not compiling for the server target. -/
def mkOptions (id : String) (p : ParserConfig) (ssr : Bool) : SwcOptions :=
  { filename := id
    swcrc := false
    configFile := false
    sourceMaps := true
    target := "es2020"
    parserCfg := p
    useDefineForClassFields := true
    refresh := !ssr
    development := true
    useBuiltins := true
    runtime := "automatic" }

/-- Everything the injection template puts before `${result.code}`
(source lines 154-162): the runtime import, the preamble guard, and the
hook save/set lines — eight newlines in total, the last line being the
two-space indent that precedes the original compiled output. -/
def refreshHeader (id : String) : String :=
  "import * as RefreshRuntime from \"/@react-refresh\";\n  \n  if (!window.$RefreshReg$) throw new Error(\"React refresh preamble was not loaded. Something is wrong.\");\n  const prevRefreshReg = window.$RefreshReg$;\n  const prevRefreshSig = window.$RefreshSig$;\n  window.$RefreshReg$ = RefreshRuntime.getRefreshReg(\"" ++ id ++ "\");\n  window.$RefreshSig$ = RefreshRuntime.createSignatureFunctionForTransform;\n  \n  "

/-- Everything the injection template puts after `${result.code}`
(source lines 162-173): hook restore and the hot-update accept handler. -/
def refreshFooter : String :=
  "\n  \n  window.$RefreshReg$ = prevRefreshReg;\n  window.$RefreshSig$ = prevRefreshSig;\n  import.meta.hot.accept((nextExports) => \x7b\n  if (!nextExports) return;\n  import(/* @vite-ignore */ import.meta.url).then((current) => \x7b\n    const invalidateMessage = RefreshRuntime.validateRefreshBoundaryAndEnqueueUpdate(current, nextExports);\n    if (invalidateMessage) import.meta.hot.invalidate(invalidateMessage);\n  \x7d);\n\x7d);\n  "

/-- The full live-reload wrapping of a compiled module body. -/
def wrapCode (id code : String) : String :=
  refreshHeader id ++ code ++ refreshFooter

/-- The eight empty line-segments prepended to `mappings` on injection
(source line 153). -/
def refreshSemis : String := ";;;;;;;;"

/-! ## Error position scraping (source lines 137-147) -/

/-- `\x5cd` of the scraping regex. -/
def isDig (c : Char) : Bool := 48 ≤ c.toNat && c.toNat ≤ 57

/-- Maximal digit run at the head of the list, plus the remainder. -/
def takeDigits : List Char → List Char × List Char
  | [] => ([], [])
  | c :: rest =>
    if isDig c then
      let (d, r) := takeDigits rest
      (c :: d, r)
    else ([], c :: rest)

/-- Match of the anchored regex `:(\x5cd+):(\x5cd+)]` at the head of the
list, returning the two capture groups. -/
def tryMatch (l : List Char) : Option (List Char × List Char) :=
  match l with
  | ':' :: rest =>
    let (d1, r1) := takeDigits rest
    if d1.isEmpty then none
    else
      match r1 with
      | ':' :: r2 =>
        let (d2, r3) := takeDigits r2
        if d2.isEmpty then none
        else
          match r3 with
          | ']' :: _ => some (d1, d2)
          | _ => none
      | _ => none
  | _ => none

/-- First (leftmost) match of `:(\x5cd+):(\x5cd+)]` in the list. -/
def regexFirst (l : List Char) : Option (List Char × List Char) :=
  match l with
  | [] => none
  | _ :: rest =>
    match tryMatch l with
    | some r => some r
    | none => regexFirst rest

/-- The diagnostic-frame delimiter the code searches for. -/
def delimChars : List Char := ['╭', '─', '[']

/-- `message.slice(message.indexOf("..."))`: the suffix starting at the
first occurrence of the frame delimiter, if any. -/
def sliceFromDelim : List Char → Option (List Char)
  | [] => none
  | c :: rest =>
    if isPrefixOfL delimChars (c :: rest) then some (c :: rest)
    else sliceFromDelim rest

/-- Locate the frame delimiter, then the first `:line:column]` pattern in
the suffix starting there. -/
def findLoc (msg : List Char) : Option (List Char × List Char) :=
  match sliceFromDelim msg with
  | none => none
  | some suffix => regexFirst suffix

/-- Enrich a transformer failure with `line`/`column` when the diagnostic
text yields them (source lines 137-147). -/
def attachLoc (e : SwcError) : ThrownError :=
  match findLoc e.message.data with
  | some (l, c) => ⟨e.message, some (String.mk l), some (String.mk c)⟩
  | none => ⟨e.message, none, none⟩

/-- The live-reload injection step (source lines 152-174): when the
compiled code contains the registration marker, wrap the code and prepend
the eight empty segments to the mappings; otherwise pass through. -/
def postProcess (id : String) (result : Output) : Output :=
  if strContains result.code "$RefreshReg$" then
    ⟨wrapCode id result.code, ⟨refreshSemis ++ result.map.mappings⟩⟩
  else result

/-! ## The transform hook -/

/-- The mutable state the transform hook touches: the in-memory cache map,
the on-disk per-entry files (keyed by file cache path), and — for
specification purposes — a count of opaque-transformer invocations. -/
structure TransformState where
  cache : List (String × CacheEntry)
  diskFiles : List (String × CacheEntry)
  invocations : Nat
  deriving DecidableEq, Repr

/-- The transform hook (source lines 95-187). `swc` is the opaque
transformer, `relP` is Node's `path.relative`, `root` the resolved project
root. Returns the updated state and either a thrown error, a skip
(`none`), or the compiled `\x7b code, map \x7d`. -/
def transform
    (swc : String → SwcOptions → Except SwcError Output)
    (relP : String → String → String)
    (root : String) (st : TransformState)
    (code id : String) (ssr : Bool) :
    TransformState × Except ThrownError (Option Output) :=
  if strContains id "node_modules" then (st, .ok none)
  else
    match parserFor id with
    | none => (st, .ok none)
    | some parser =>
      let fileCachePath := fileCacheKey (relP root id) ssr
      let hit : Option CacheEntry :=
        match mapGet st.cache fileCachePath with
        | some e => if e.input == code then some e else none
        | none => none
      match hit with
      | some e => (st, .ok (some ⟨e.code, e.map⟩))
      | none =>
        let st1 : TransformState := ⟨st.cache, st.diskFiles, st.invocations + 1⟩
        match swc code (mkOptions id parser ssr) with
        | .error e => (st1, .error (attachLoc e))
        | .ok result =>
          let final : Output := postProcess id result
          let entry : CacheEntry := ⟨code, final.code, final.map⟩
          (⟨st1.cache, mapSet st1.diskFiles fileCachePath entry, st1.invocations⟩,
            .ok (some ⟨final.code, final.map⟩))

/-! ## configResolved: cache initialization (source lines 60-94) -/

/-- JSON values, as produced by the opaque `JSON.parse`. -/
inductive Json where
  | null
  | bool (b : Bool)
  | num (n : Int)
  | str (s : String)
  | arr (elems : List Json)
  | obj (fields : List (String × Json))

/-- JS property access `v.someField` on a parsed JSON value: throws a
`TypeError` on `null`, yields `undefined` (`none`) on non-object values
and on objects lacking the field. -/
def jsGetField (j : Json) (key : String) : Except String (Option Json) :=
  match j with
  | .null => .error "TypeError: Cannot read properties of null"
  | .obj fields => .ok (mapGet fields key)
  | _ => .ok none

/-- JS strict equality `field === v` between a possibly-undefined JSON
field and a string. -/
def jsonFieldEqStr (field : Option Json) (v : String) : Bool :=
  match field with
  | some (.str s) => s == v
  | _ => false

/-- String projection out of a JSON object field (the blind
`as CacheEntry` cast applied to a restored entry file). -/
def jsStrField (j : Json) (key : String) : String :=
  match j with
  | .obj fields =>
    match mapGet fields key with
    | some (.str s) => s
    | _ => ""
  | _ => ""

/-- The blind `JSON.parse(json) as CacheEntry` cast. -/
def entryOfJson (j : Json) : CacheEntry :=
  { input := jsStrField j "input"
    code := jsStrField j "code"
    map := ⟨match jsGetField j "map" with
            | .ok (some m) => jsStrField m "mappings"
            | _ => ""⟩ }

/-- The on-disk cache directory: its existence, the raw content of
`_metadata.json` if present, and the remaining files (name, raw content). -/
structure Disk where
  dirExists : Bool
  metadata : Option String
  entries : List (String × String)
  deriving DecidableEq, Repr

/-- Plugin module-level state relevant to `configResolved`: the in-memory
cache and the `root` / `cachePath` variables (unset before first run). -/
structure PluginState where
  cache : List (String × CacheEntry)
  root : Option String
  cachePath : Option String
  deriving DecidableEq, Repr

/-- Result of running `configResolved`: the state, the disk, and the error
the async hook rejected with, if any. -/
structure ConfigOut where
  st : PluginState
  disk : Disk
  err : Option String
  deriving DecidableEq, Repr

/-- `JSON.stringify(\x7b version \x7d)` for the metadata record. -/
def metadataStringify (v : String) : String :=
  "\x7b\"version\":\"" ++ v ++ "\"\x7d"

/-- Restore every entry file (`Promise.all` over per-file reads +
`JSON.parse`); any parse failure rejects the whole restore. -/
def restoreEntries (parse : String → Except String Json) :
    List (String × String) → Except String (List (String × CacheEntry))
  | [] => .ok []
  | (f, raw) :: rest => do
    let j ← parse raw
    let r ← restoreEntries parse rest
    .ok ((f, entryOfJson j) :: r)

/-- The `configResolved` hook (source lines 60-94). `parse` is the opaque
`JSON.parse`; `swcVersion` the opaque transformer's version string. -/
def configResolved (parse : String → Except String Json)
    (swcVersion : String) (st : PluginState)
    (configRoot cacheDir : String) (disk : Disk) : ConfigOut :=
  if st.cache.length > 0 then ⟨st, disk, none⟩
  else
    let st1 : PluginState :=
      { st with root := some configRoot, cachePath := some (cacheDir ++ "/swc-cache") }
    let version := "1-" ++ swcVersion
    match disk.metadata with
    | some content =>
      match parse content with
      | .error e => ⟨st1, disk, some e⟩
      | .ok previousCache =>
        match jsGetField previousCache "version" with
        | .error e => ⟨st1, disk, some e⟩
        | .ok field =>
          if jsonFieldEqStr field version then
            match restoreEntries parse
                (disk.entries.filter
                  (fun p => strEndsWith p.1 ".json" && p.1 != "_metadata.json")) with
            | .error e => ⟨st1, disk, some e⟩
            | .ok restored =>
              ⟨{ st1 with cache := restored },
                { disk with metadata := some (metadataStringify version) }, none⟩
          else
            ⟨st1, ⟨true, some (metadataStringify version), []⟩, none⟩
    | none =>
      ⟨st1,
        { dirExists := true, metadata := some (metadataStringify version),
          entries := disk.entries }, none⟩

/-! ## Source-map line bookkeeping (for the injection-offset property) -/

/-- JS `mappings.split(";")`: the per-generated-line groups of a
source-map mappings string — group `i` carries the mappings of generated
line `i`. -/
def splitSemis : List Char → List (List Char)
  | [] => [[]]
  | c :: rest =>
    let r := splitSemis rest
    if c = ';' then [] :: r
    else
      match r with
      | [] => [[c]]
      | g :: gs => (c :: g) :: gs

/-- Newline count of a character list. -/
def countNL (l : List Char) : Nat := l.count '\n'

/-- The 0-based line on which character position `p` of `l` falls. -/
def lineOfPos (l : List Char) (p : Nat) : Nat := countNL (l.take p)

/-! ## Concrete collaborators used in witnesses and counterexamples -/

/-- `path.relative` stub for witnesses: the root is `""` and ids are
given already relative. -/
def relId : String → String → String := fun _ id => id

/-- Empty transform-hook state (fresh session, nothing on disk). -/
def stEmpty : TransformState := ⟨[], [], 0⟩

/-- A deterministic opaque transformer for witnesses. -/
def swcOut : String → SwcOptions → Except SwcError Output :=
  fun c _ => .ok ⟨"out:" ++ c, ⟨"AACA"⟩⟩

/-- An opaque transformer whose output contains the registration marker
(e.g. the source embedded the marker in a string literal). -/
def swcMark : String → SwcOptions → Except SwcError Output :=
  fun _ _ => .ok ⟨"$RefreshReg$", ⟨"m"⟩⟩

/-- An opaque transformer whose output contains no registration marker. -/
def swcPlain : String → SwcOptions → Except SwcError Output :=
  fun _ _ => .ok ⟨"plain output", ⟨"mm"⟩⟩

/-- An opaque transformer that always fails. -/
def swcThrow : String → SwcOptions → Except SwcError Output :=
  fun _ _ => .error ⟨"boom"⟩

/-- A concrete cache entry. -/
def entryStub : CacheEntry := ⟨"IN", "OUT", ⟨"MM"⟩⟩

/-- Transform state whose in-memory cache holds `entryStub` for
`src/App.tsx` (normal target). -/
def stCached : TransformState := ⟨[("src|App.tsx.json", entryStub)], [], 0⟩

/-- `JSON.parse` stub returning a non-record value. -/
def parse5 : String → Except String Json := fun _ => .ok (.num 5)

/-- `JSON.parse` stub returning a metadata record with version
`1-oldswc`. -/
def parseV1 : String → Except String Json :=
  fun _ => .ok (.obj [("version", .str "1-oldswc")])

/-- `JSON.parse` stub that throws (invalid JSON). -/
def parseBad : String → Except String Json :=
  fun _ => .error "SyntaxError: Unexpected token"

/-- Fresh plugin state (process start). -/
def pstEmpty : PluginState := ⟨[], none, none⟩

/-- Plugin state with a populated in-memory cache. -/
def pstCached : PluginState := ⟨[("k.json", entryStub)], none, none⟩

/-- An on-disk cache directory holding a metadata file and one entry. -/
def diskStub : Disk := ⟨true, some "meta", [("a.json", "junk")]⟩

/-! ## Helper lemmas -/

lemma strData_append (a b : String) : (a ++ b).data = a.data ++ b.data := rfl

lemma countNL_append (a b : List Char) : countNL (a ++ b) = countNL a + countNL b :=
  List.count_append ..

lemma splitSemis_semi (l : List Char) : splitSemis (';' :: l) = [] :: splitSemis l := by
  simp [splitSemis]

lemma splitSemis_prepend8 (m : List Char) :
    splitSemis (refreshSemis.data ++ m) = List.replicate 8 [] ++ splitSemis m := by
  show splitSemis (';' :: ';' :: ';' :: ';' :: ';' :: ';' :: ';' :: ';' :: m)
      = List.replicate 8 [] ++ splitSemis m
  simp [splitSemis_semi, List.replicate]

lemma splitSemis_shift (m : List Char) (i : Nat) :
    (splitSemis (refreshSemis.data ++ m))[8 + i]? = (splitSemis m)[i]? := by
  rw [splitSemis_prepend8, List.getElem?_append_right (by simp)]
  simp

lemma refreshHeader_newlines (id : String) (h : id.data.count '\n' = 0) :
    countNL (refreshHeader id).data = 8 := by
  unfold refreshHeader countNL
  rw [strData_append, strData_append, List.count_append, List.count_append, h]
  decide

lemma lineOfPos_wrapCode (id c : String) (p : Nat)
    (hid : id.data.count '\n' = 0) (hp : p ≤ c.data.length) :
    lineOfPos (wrapCode id c).data ((refreshHeader id).data.length + p)
      = 8 + lineOfPos c.data p := by
  unfold wrapCode
  rw [strData_append, strData_append, List.append_assoc]
  unfold lineOfPos
  rw [List.take_append, countNL_append, List.take_append_of_le_length hp]
  rw [refreshHeader_newlines id hid]

lemma transform_hit (swc : String → SwcOptions → Except SwcError Output)
    (relP : String → String → String) (root : String) (st : TransformState)
    (code id : String) (ssr : Bool) (p : ParserConfig) (e : CacheEntry)
    (h1 : strContains id "node_modules" = false)
    (h2 : parserFor id = some p)
    (he : mapGet st.cache (fileCacheKey (relP root id) ssr) = some e)
    (hi : e.input = code) :
    transform swc relP root st code id ssr = (st, .ok (some ⟨e.code, e.map⟩)) := by
  unfold transform
  simp only [h1, Bool.false_eq_true, if_false, h2, he, hi, beq_self_eq_true, if_true]

lemma transform_miss (swc : String → SwcOptions → Except SwcError Output)
    (relP : String → String → String) (root : String) (st : TransformState)
    (code id : String) (ssr : Bool) (p : ParserConfig)
    (h1 : strContains id "node_modules" = false)
    (h2 : parserFor id = some p)
    (h3 : ∀ e, mapGet st.cache (fileCacheKey (relP root id) ssr) = some e →
      e.input ≠ code) :
    transform swc relP root st code id ssr =
      match swc code (mkOptions id p ssr) with
      | .error e => (⟨st.cache, st.diskFiles, st.invocations + 1⟩, .error (attachLoc e))
      | .ok result =>
        (⟨st.cache,
          mapSet st.diskFiles (fileCacheKey (relP root id) ssr)
            ⟨code, (postProcess id result).code, (postProcess id result).map⟩,
          st.invocations + 1⟩,
          .ok (some ⟨(postProcess id result).code, (postProcess id result).map⟩)) := by
  unfold transform
  simp only [h1, Bool.false_eq_true, if_false, h2]
  cases hm : mapGet st.cache (fileCacheKey (relP root id) ssr) with
  | none => simp only [hm]
  | some e =>
    have : (e.input == code) = false := beq_eq_false_iff_ne.mpr (h3 e hm)
    simp only [hm, this, Bool.false_eq_true, if_false]

lemma transform_skip (swc : String → SwcOptions → Except SwcError Output)
    (relP : String → String → String) (root : String) (st : TransformState)
    (code id : String) (ssr : Bool)
    (h : strContains id "node_modules" = true ∨ parserFor id = none) :
    transform swc relP root st code id ssr = (st, .ok none) := by
  unfold transform
  rcases h with h | h
  · simp only [h, if_true]
  · cases hc : strContains id "node_modules"
    · simp only [Bool.false_eq_true, if_false, h]
    · simp only [if_true]

lemma transform_cache_unchanged (swc : String → SwcOptions → Except SwcError Output)
    (relP : String → String → String) (root : String) (st : TransformState)
    (code id : String) (ssr : Bool) :
    (transform swc relP root st code id ssr).1.cache = st.cache := by
  by_cases h1 : strContains id "node_modules" = true
  · rw [transform_skip swc relP root st code id ssr (Or.inl h1)]
  · have h1f : strContains id "node_modules" = false := by
      cases hx : strContains id "node_modules"
      · rfl
      · exact absurd hx h1
    cases h2 : parserFor id with
    | none => rw [transform_skip swc relP root st code id ssr (Or.inr h2)]
    | some p =>
      by_cases hhit : ∃ e, mapGet st.cache (fileCacheKey (relP root id) ssr) = some e
        ∧ e.input = code
      · obtain ⟨e, he, hi⟩ := hhit
        rw [transform_hit swc relP root st code id ssr p e h1f h2 he hi]
      · have h3 : ∀ e, mapGet st.cache (fileCacheKey (relP root id) ssr) = some e →
            e.input ≠ code := fun e he hi => hhit ⟨e, he, hi⟩
        rw [transform_miss swc relP root st code id ssr p h1f h2 h3]
        cases swc code (mkOptions id p ssr) <;> rfl

lemma sliceFromDelim_eq_none (msg : List Char)
    (h : containsSub delimChars msg = false) : sliceFromDelim msg = none := by
  induction msg with
  | nil => rfl
  | cons c rest ih =>
    unfold containsSub at h
    rw [Bool.or_eq_false_iff] at h
    unfold sliceFromDelim
    rw [h.1]
    simp only [Bool.false_eq_true, if_false]
    exact ih h.2

lemma sliceFromDelim_append (pre rest : List Char) (hp : '╭' ∉ pre)
    (hr : isPrefixOfL delimChars rest = true) :
    sliceFromDelim (pre ++ rest) = some rest := by
  induction pre with
  | nil =>
    cases rest with
    | nil => exact absurd hr (by decide)
    | cons r rs =>
      show (if isPrefixOfL delimChars (r :: rs) = true then some (r :: rs)
        else sliceFromDelim rs) = some (r :: rs)
      rw [hr]
      simp
  | cons c pre ih =>
    have hc : ('╭' == c) = false :=
      beq_eq_false_iff_ne.mpr fun h => hp (h ▸ List.mem_cons_self ..)
    have hihp : '╭' ∉ pre := fun h => hp (List.mem_cons_of_mem _ h)
    have hpref : isPrefixOfL delimChars (c :: (pre ++ rest)) = false := by
      show (('╭' == c) && isPrefixOfL ['─', '['] (pre ++ rest)) = false
      rw [hc, Bool.false_and]
    show (if isPrefixOfL delimChars (c :: (pre ++ rest)) = true
        then some (c :: (pre ++ rest)) else sliceFromDelim (pre ++ rest)) = some rest
    rw [hpref]
    simp only [Bool.false_eq_true, if_false]
    exact ih hihp

/-! ## Claim theorems -/

/-- C1: the claim says a successful compile stores `\x7b input, code, map \x7d`
in the in-memory cache so that a second identical Transform call returns
it without re-invoking the transformer. The code never writes the
in-memory map (`transform` only serializes the entry to disk), so the
claim fails: in general `transform` leaves the in-memory cache exactly as
it found it, and at the concrete failing input a successful compile of
`src/App.tsx` leaves the key absent from the in-memory cache (while the
disk file is written), and a second call with the identical source text
invokes the opaque transformer a second time (invocation count 2). -/
theorem C1_memory_cache_never_written :
    (∀ (swc : String → SwcOptions → Except SwcError Output)
        (relP : String → String → String) (root : String)
        (st : TransformState) (code id : String) (ssr : Bool),
      (transform swc relP root st code id ssr).1.cache = st.cache) ∧
    mapGet (transform swcOut relId "" stEmpty "const x = 1" "src/App.tsx" false).1.cache
        "src|App.tsx.json" = none ∧
    mapGet (transform swcOut relId "" stEmpty "const x = 1" "src/App.tsx" false).1.diskFiles
        "src|App.tsx.json"
      = some ⟨"const x = 1", "out:const x = 1", ⟨"AACA"⟩⟩ ∧
    (transform swcOut relId ""
        (transform swcOut relId "" stEmpty "const x = 1" "src/App.tsx" false).1
        "const x = 1" "src/App.tsx" false).1.invocations = 2 := by
  exact ⟨transform_cache_unchanged, by decide, by decide, by decide⟩

/-- C2: the cache fast path is taken exactly when the stored `input` is
character-for-character equal to the current source text: on an exact
match `transform` returns the stored `\x7b code, map \x7d` with the state
untouched (no transformer invocation), and whenever the stored input
differs from the current source (any difference at all) the opaque
transformer is invoked (invocation count increases), so a stale entry is
never served. -/
theorem C2_exact_input_equality_gates_fast_path
    (swc : String → SwcOptions → Except SwcError Output)
    (relP : String → String → String) (root : String) (st : TransformState)
    (code id : String) (ssr : Bool) (p : ParserConfig)
    (h1 : strContains id "node_modules" = false)
    (h2 : parserFor id = some p) :
    (∀ e, mapGet st.cache (fileCacheKey (relP root id) ssr) = some e →
      e.input = code →
      transform swc relP root st code id ssr = (st, .ok (some ⟨e.code, e.map⟩))) ∧
    ((∀ e, mapGet st.cache (fileCacheKey (relP root id) ssr) = some e →
        e.input ≠ code) →
      (transform swc relP root st code id ssr).1.invocations = st.invocations + 1) := by
  constructor
  · intro e he hi
    exact transform_hit swc relP root st code id ssr p e h1 h2 he hi
  · intro h3
    rw [transform_miss swc relP root st code id ssr p h1 h2 h3]
    cases swc code (mkOptions id p ssr) <;> rfl

/-- C2 witness: with a cached entry for `src/App.tsx` whose stored input
is `IN`, compiling `IN` again returns the stored output with the state
untouched, while compiling the different text `OTHER` invokes the
transformer. -/
theorem C2_witness :
    strContains "src/App.tsx" "node_modules" = false ∧
    parserFor "src/App.tsx" = some (.typescript true) ∧
    transform swcOut relId "" stCached "IN" "src/App.tsx" false
      = (stCached, .ok (some ⟨"OUT", ⟨"MM"⟩⟩)) ∧
    (transform swcOut relId "" stCached "OTHER" "src/App.tsx" false).1.invocations
      = stCached.invocations + 1 :=
  ⟨by decide, by decide,
    (C2_exact_input_equality_gates_fast_path swcOut relId "" stCached "IN"
        "src/App.tsx" false (.typescript true) (by decide) (by decide)).1
      entryStub rfl rfl,
    (C2_exact_input_equality_gates_fast_path swcOut relId "" stCached "OTHER"
        "src/App.tsx" false (.typescript true) (by decide) (by decide)).2
      (fun e he => by
        have : entryStub = e := Option.some.inj he
        rw [← this]
        decide)⟩

/-- C7: a file whose id indicates a vendored dependency tree
(`node_modules`) or whose extension selects no parser is skipped:
`transform` returns no output and the whole state — in-memory cache,
on-disk files, and transformer-invocation count — is unchanged. -/
theorem C7_ineligible_files_skipped
    (swc : String → SwcOptions → Except SwcError Output)
    (relP : String → String → String) (root : String) (st : TransformState)
    (code id : String) (ssr : Bool)
    (h : strContains id "node_modules" = true ∨ parserFor id = none) :
    transform swc relP root st code id ssr = (st, .ok none) :=
  transform_skip swc relP root st code id ssr h

/-- C7 witness: a vendored file and a `.css` file are both skipped with
the state untouched. -/
theorem C7_witness :
    (strContains "node_modules/react/index.jsx" "node_modules" = true ∨
      parserFor "node_modules/react/index.jsx" = none) ∧
    (strContains "src/style.css" "node_modules" = true ∨
      parserFor "src/style.css" = none) ∧
    transform swcOut relId "" stEmpty "x" "node_modules/react/index.jsx" false
      = (stEmpty, .ok none) ∧
    transform swcOut relId "" stEmpty "x" "src/style.css" false
      = (stEmpty, .ok none) :=
  ⟨Or.inl (by decide), Or.inr (by decide),
    C7_ineligible_files_skipped swcOut relId "" stEmpty "x"
      "node_modules/react/index.jsx" false (Or.inl (by decide)),
    C7_ineligible_files_skipped swcOut relId "" stEmpty "x"
      "src/style.css" false (Or.inr (by decide))⟩

/-- C3 counterexample: the claim's equality of prepended map segments and
prepended code lines fails when the module id itself contains a newline.
The id `a\nb.tsx` is eligible (ends in `.tsx`, not vendored) and the
transformer output contains the marker, so injection triggers; the
injected header (which interpolates the id) then prepends nine lines
while the mappings string gains only eight empty segments. -/
theorem C3_cex :
    (transform swcMark relId "" stEmpty "x" "a\nb.tsx" false).2
      = .ok (some ⟨wrapCode "a\nb.tsx" "$RefreshReg$", ⟨refreshSemis ++ "m"⟩⟩) ∧
    countNL (refreshHeader "a\nb.tsx").data = 9 ∧
    refreshSemis.data.count ';' = 8 ∧
    (9 : Nat) ≠ 8 :=
  ⟨rfl, by decide, by decide, by decide⟩

/-- C3 (amended: for module ids containing no newline): when injection
triggers, the mappings string gains exactly eight empty line segments
(one per `;`), the injected header contributes exactly eight lines before
the original compiled output, every character of the original output is
shifted down by exactly eight lines, and the mapping group consulted for
shifted line `8 + i` of the new mappings is the group for line `i` of the
original mappings — so a position in the un-shifted original portion
resolves to the same source line before and after injection. -/
theorem C3_injection_preserves_line_resolution
    (id m c : String) (p i : Nat)
    (hid : id.data.count '\n' = 0)
    (hp : p ≤ c.data.length)
    (hmark : strContains c "$RefreshReg$" = true) :
    postProcess id ⟨c, ⟨m⟩⟩ = ⟨wrapCode id c, ⟨refreshSemis ++ m⟩⟩ ∧
    splitSemis (refreshSemis.data ++ m.data)
      = List.replicate 8 [] ++ splitSemis m.data ∧
    countNL (refreshHeader id).data = 8 ∧
    lineOfPos (wrapCode id c).data ((refreshHeader id).data.length + p)
      = 8 + lineOfPos c.data p ∧
    (splitSemis (refreshSemis.data ++ m.data))[8 + i]? = (splitSemis m.data)[i]? :=
  ⟨by simp only [postProcess, hmark, if_true],
    splitSemis_prepend8 m.data,
    refreshHeader_newlines id hid,
    lineOfPos_wrapCode id c p hid hp,
    splitSemis_shift m.data i⟩

/-- C3 witness: instantiation at id `a.tsx`, a marker-bearing compiled
output and a two-group mappings string. -/
theorem C3_witness :
    ("a.tsx" : String).data.count '\n' = 0 ∧
    (1 : Nat) ≤ ("$RefreshReg$\ny" : String).data.length ∧
    strContains "$RefreshReg$\ny" "$RefreshReg$" = true ∧
    (postProcess "a.tsx" ⟨"$RefreshReg$\ny", ⟨"AACA;SAAA"⟩⟩
        = ⟨wrapCode "a.tsx" "$RefreshReg$\ny", ⟨refreshSemis ++ "AACA;SAAA"⟩⟩ ∧
      splitSemis (refreshSemis.data ++ ("AACA;SAAA" : String).data)
        = List.replicate 8 [] ++ splitSemis ("AACA;SAAA" : String).data ∧
      countNL (refreshHeader "a.tsx").data = 8 ∧
      lineOfPos (wrapCode "a.tsx" "$RefreshReg$\ny").data
          ((refreshHeader "a.tsx").data.length + 1)
        = 8 + lineOfPos ("$RefreshReg$\ny" : String).data 1 ∧
      (splitSemis (refreshSemis.data ++ ("AACA;SAAA" : String).data))[8 + 0]?
        = (splitSemis ("AACA;SAAA" : String).data)[0]?) :=
  ⟨by decide, by decide, by decide,
    C3_injection_preserves_line_resolution "a.tsx" "AACA;SAAA" "$RefreshReg$\ny" 1 0
      (by decide) (by decide) (by decide)⟩

/-- C4 counterexample: with the server-target flag set, `transform` still
injects the live-reload instrumentation whenever the compiled output
contains the marker token (possible, e.g., when the source embeds the
literal marker in a string, which survives compilation): the returned
code is the full wrapped module, which contains the runtime import. -/
theorem C4_cex :
    (transform swcMark relId "" stEmpty "x" "a.tsx" true).2
      = .ok (some ⟨wrapCode "a.tsx" "$RefreshReg$", ⟨refreshSemis ++ "m"⟩⟩) ∧
    strContains (wrapCode "a.tsx" "$RefreshReg$")
      "import * as RefreshRuntime from \"/@react-refresh\";" = true :=
  ⟨rfl, by decide⟩

/-- C4 (amended): for a server-target compile the transformer options
disable live-reload instrumentation (`refresh = !ssr = false`), and the
injection step is driven purely by marker presence: whenever the compiled
output contains no marker token, `transform` returns that output verbatim,
with no instrumentation prepended or appended. -/
theorem C4_ssr_output_uninstrumented_when_markerless
    (swc : String → SwcOptions → Except SwcError Output)
    (relP : String → String → String) (root : String) (st : TransformState)
    (code id : String) (ssr : Bool) (p : ParserConfig) (result : Output)
    (h1 : strContains id "node_modules" = false)
    (h2 : parserFor id = some p)
    (h3 : ∀ e, mapGet st.cache (fileCacheKey (relP root id) ssr) = some e →
      e.input ≠ code)
    (hswc : swc code (mkOptions id p ssr) = .ok result)
    (hnm : strContains result.code "$RefreshReg$" = false) :
    (mkOptions id p true).refresh = false ∧
    (transform swc relP root st code id ssr).2 = .ok (some ⟨result.code, result.map⟩) := by
  refine ⟨rfl, ?_⟩
  rw [transform_miss swc relP root st code id ssr p h1 h2 h3, hswc]
  simp only [postProcess, hnm, Bool.false_eq_true, if_false]

/-- C4 witness: a server-target compile of `src/App.tsx` whose compiled
output has no marker is returned exactly as compiled. -/
theorem C4_witness :
    strContains "src/App.tsx" "node_modules" = false ∧
    parserFor "src/App.tsx" = some (.typescript true) ∧
    swcPlain "x" (mkOptions "src/App.tsx" (.typescript true) true)
      = .ok ⟨"plain output", ⟨"mm"⟩⟩ ∧
    strContains "plain output" "$RefreshReg$" = false ∧
    ((mkOptions "src/App.tsx" (.typescript true) true).refresh = false ∧
      (transform swcPlain relId "" stEmpty "x" "src/App.tsx" true).2
        = .ok (some ⟨"plain output", ⟨"mm"⟩⟩)) :=
  ⟨by decide, by decide, rfl, by decide,
    C4_ssr_output_uninstrumented_when_markerless swcPlain relId "" stEmpty "x"
      "src/App.tsx" true (.typescript true) ⟨"plain output", ⟨"mm"⟩⟩
      (by decide) (by decide) (fun e he => by simp [stEmpty, mapGet] at he)
      rfl (by decide)⟩

/-- C5 counterexample: key derivation is not injective across distinct
file identities — the slash-to-pipe normalization conflates the distinct
project-relative paths `a/b.ts` and `a|b.ts` under the same target. -/
theorem C5_cex :
    fileCacheKey "a/b.ts" false = fileCacheKey "a|b.ts" false ∧
    ("a/b.ts" : String) ≠ "a|b.ts" :=
  ⟨by decide, by decide⟩

/-- C5 (amended): the same relative path compiled for the normal target
and for the server target always yields two distinct cache keys (the
server key carries the extra `-srr` suffix); full injectivity over all
identities fails because the slash normalization can conflate paths. -/
theorem C5_target_flag_distinguishes_keys (rel : String) :
    fileCacheKey rel false ≠ fileCacheKey rel true := by
  intro h
  have h2 : (fileCacheKey rel false).data.length = (fileCacheKey rel true).data.length := by
    rw [h]
  simp [fileCacheKey, strData_append, List.length_append] at h2

/-- C5 witness: concrete instance of the amended statement. -/
theorem C5_witness : fileCacheKey "src/App.tsx" false ≠ fileCacheKey "src/App.tsx" true :=
  C5_target_flag_distinguishes_keys "src/App.tsx"

/-- C6: error-position extraction and propagation. (1) A diagnostic
message without the frame delimiter yields no position. (2) A message
consisting of delimiter-free text, then the frame `╭─[a.tsx:12:5]`, then
anything, yields line `12` and column `5`. (3)/(4) The thrown error
carries exactly the extracted position (as strings) and the original
message. (5) On transformer failure the transform hook re-throws the
enriched error — the state shows the invocation but no output and no
cache write. -/
theorem C6_error_position_extraction :
    (∀ msg : List Char, containsSub delimChars msg = false → findLoc msg = none) ∧
    (∀ pre post : List Char, '╭' ∉ pre →
      findLoc (pre ++ (("╭─[a.tsx:12:5]" : String).data ++ post))
        = some (['1', '2'], ['5'])) ∧
    (∀ m : String, ∀ l c : List Char, findLoc m.data = some (l, c) →
      attachLoc ⟨m⟩ = ⟨m, some (String.mk l), some (String.mk c)⟩) ∧
    (∀ m : String, findLoc m.data = none → attachLoc ⟨m⟩ = ⟨m, none, none⟩) ∧
    (∀ (swc : String → SwcOptions → Except SwcError Output)
        (relP : String → String → String) (root : String) (st : TransformState)
        (code id : String) (ssr : Bool) (p : ParserConfig) (e : SwcError),
      strContains id "node_modules" = false → parserFor id = some p →
      (∀ en, mapGet st.cache (fileCacheKey (relP root id) ssr) = some en →
        en.input ≠ code) →
      swc code (mkOptions id p ssr) = .error e →
      transform swc relP root st code id ssr
        = (⟨st.cache, st.diskFiles, st.invocations + 1⟩, .error (attachLoc e))) := by
  refine ⟨?_, ?_, ?_, ?_, ?_⟩
  · intro msg h
    unfold findLoc
    rw [sliceFromDelim_eq_none msg h]
  · intro pre post hp
    unfold findLoc
    rw [sliceFromDelim_append pre (("╭─[a.tsx:12:5]" : String).data ++ post) hp
      (by rfl)]
    rfl
  · intro m l c h
    unfold attachLoc
    rw [h]
  · intro m h
    unfold attachLoc
    rw [h]
  · intro swc relP root st code id ssr p e h1 h2 h3 hswc
    rw [transform_miss swc relP root st code id ssr p h1 h2 h3, hswc]

/-- C6 witness: a delimiter-free message yields no position; a framed
message yields `12`/`5`; the enriched error carries them; a failing
compile of `src/App.tsx` re-throws. -/
theorem C6_witness :
    containsSub delimChars ("Unexpected token" : String).data = false ∧
    ('╭' ∉ ("error: " : String).data) ∧
    (findLoc ("Unexpected token" : String).data = none ∧
      findLoc (("error: " : String).data
          ++ (("╭─[a.tsx:12:5]" : String).data ++ (" |" : String).data))
        = some (['1', '2'], ['5']) ∧
      attachLoc ⟨"x╭─[a.tsx:12:5]"⟩
        = ⟨"x╭─[a.tsx:12:5]", some (String.mk ['1', '2']), some (String.mk ['5'])⟩ ∧
      attachLoc ⟨"boom"⟩ = ⟨"boom", none, none⟩ ∧
      transform swcThrow relId "" stEmpty "c" "src/App.tsx" false
        = (⟨[], [], 1⟩, .error (attachLoc ⟨"boom"⟩))) :=
  ⟨by decide, by decide,
    C6_error_position_extraction.1 _ (by decide),
    C6_error_position_extraction.2.1 ("error: " : String).data (" |" : String).data
      (by decide),
    C6_error_position_extraction.2.2.1 "x╭─[a.tsx:12:5]" ['1', '2'] ['5'] (by decide),
    C6_error_position_extraction.2.2.2.1 "boom" (by decide),
    C6_error_position_extraction.2.2.2.2 swcThrow relId "" stEmpty "c" "src/App.tsx"
      false (.typescript true) ⟨"boom"⟩ (by decide) (by decide)
      (fun en hen => by simp [stEmpty, mapGet] at hen) rfl⟩

/-- C8: initializing with an on-disk metadata record whose version is some
`V1` different from the current composite version discards the prior
cache: the hook completes without error, the cache directory ends up
empty of entry files, a fresh metadata record with the current composite
version is written, and the in-memory mapping stays empty (every lookup
is absent). -/
theorem C8_version_mismatch_wipes_cache
    (parse : String → Except String Json) (swcV : String) (st : PluginState)
    (configRoot cacheDir : String) (disk : Disk)
    (content : String) (j : Json) (v1 : String)
    (hcache : st.cache = [])
    (hmeta : disk.metadata = some content)
    (hparse : parse content = .ok j)
    (hv : jsGetField j "version" = .ok (some (.str v1)))
    (hne : v1 ≠ "1-" ++ swcV) :
    configResolved parse swcV st configRoot cacheDir disk
      = ⟨{ st with
            root := some configRoot,
            cachePath := some (cacheDir ++ "/swc-cache") },
          ⟨true, some (metadataStringify ("1-" ++ swcV)), []⟩, none⟩ ∧
    (∀ k, mapGet (configResolved parse swcV st configRoot cacheDir disk).st.cache k
      = none) := by
  have hfalse : jsonFieldEqStr (some (.str v1)) ("1-" ++ swcV) = false := by
    unfold jsonFieldEqStr
    exact beq_eq_false_iff_ne.mpr hne
  have hmain : configResolved parse swcV st configRoot cacheDir disk
      = ⟨{ st with
            root := some configRoot,
            cachePath := some (cacheDir ++ "/swc-cache") },
          ⟨true, some (metadataStringify ("1-" ++ swcV)), []⟩, none⟩ := by
    unfold configResolved
    rw [hcache]
    simp only [List.length_nil, gt_iff_lt, lt_irrefl, if_false, hmeta, hparse, hv,
      hfalse, Bool.false_eq_true]
  refine ⟨hmain, fun k => ?_⟩
  rw [hmain]
  simp only [hcache]
  rfl

/-- C8 witness: the metadata parses to version `1-oldswc` while the
session runs `swc` version `newswc`; the hook wipes and rewrites. -/
theorem C8_witness :
    pstEmpty.cache = [] ∧
    diskStub.metadata = some "meta" ∧
    parseV1 "meta" = .ok (.obj [("version", .str "1-oldswc")]) ∧
    jsGetField (.obj [("version", .str "1-oldswc")]) "version"
      = .ok (some (.str "1-oldswc")) ∧
    ("1-oldswc" : String) ≠ "1-" ++ "newswc" ∧
    (configResolved parseV1 "newswc" pstEmpty "/r" "/c" diskStub
        = ⟨{ pstEmpty with
              root := some "/r",
              cachePath := some ("/c" ++ "/swc-cache") },
            ⟨true, some (metadataStringify ("1-" ++ "newswc")), []⟩, none⟩ ∧
      ∀ k, mapGet (configResolved parseV1 "newswc" pstEmpty "/r" "/c" diskStub).st.cache k
        = none) :=
  ⟨rfl, rfl, rfl, rfl, by decide,
    C8_version_mismatch_wipes_cache parseV1 "newswc" pstEmpty "/r" "/c" diskStub
      "meta" (.obj [("version", .str "1-oldswc")]) "1-oldswc"
      rfl rfl rfl rfl (by decide)⟩

/-- C9: when the in-memory cache is already populated, a repeated
configuration-resolved call returns immediately and changes nothing: the
whole plugin state (cache, stored root, cache path) and the disk are
returned untouched and no error occurs. -/
theorem C9_idempotent_once_populated
    (parse : String → Except String Json) (swcV : String) (st : PluginState)
    (configRoot cacheDir : String) (disk : Disk)
    (h : st.cache ≠ []) :
    configResolved parse swcV st configRoot cacheDir disk = ⟨st, disk, none⟩ := by
  unfold configResolved
  rw [if_pos (List.length_pos.mpr h)]

/-- C9 witness: a second call with one cached entry is a no-op. -/
theorem C9_witness :
    pstCached.cache ≠ [] ∧
    configResolved parseV1 "newswc" pstCached "/other-root" "/other" diskStub
      = ⟨pstCached, diskStub, none⟩ :=
  ⟨by simp [pstCached],
    C9_idempotent_once_populated parseV1 "newswc" pstCached "/other-root" "/other"
      diskStub (by simp [pstCached])⟩

/-- C10 counterexample: the claim says metadata that "does not parse to a
record" makes initialization throw without wiping. In the code, only a
parse failure (or a `null` value) throws; a metadata file whose content
parses to the non-record value `5` is handled via the ordinary version
comparison (`(5).version` is `undefined`, `undefined === version` is
`false`), i.e. it is treated as a version mismatch: no error, the entry
files are deleted, and a fresh metadata record is written. -/
theorem C10_cex :
    parse5 "meta" = .ok (.num 5) ∧
    (configResolved parse5 "v" pstEmpty "/r" "/c" diskStub).err = none ∧
    (configResolved parse5 "v" pstEmpty "/r" "/c" diskStub).disk.entries = [] ∧
    (configResolved parse5 "v" pstEmpty "/r" "/c" diskStub).disk.metadata
      = some (metadataStringify "1-v") :=
  ⟨rfl, by decide, by decide, by decide⟩

/-- C10 (amended): if the metadata content is not valid JSON, the hook
rejects with exactly the parse error and touches nothing on disk (no
wipe, no restore, no metadata write), the in-memory cache staying as it
was; if instead the content parses to a value on which the version field
reads as `undefined` (any non-null non-record value, or a record without
the field), the hook treats it as a version mismatch: it completes
without error, wipes the entry files and writes fresh metadata. -/
theorem C10_invalid_metadata_behavior
    (parse : String → Except String Json) (swcV : String) (st : PluginState)
    (configRoot cacheDir : String) (disk : Disk) (content : String)
    (hcache : st.cache = [])
    (hmeta : disk.metadata = some content) :
    (∀ e, parse content = .error e →
      configResolved parse swcV st configRoot cacheDir disk
        = ⟨{ st with
              root := some configRoot,
              cachePath := some (cacheDir ++ "/swc-cache") }, disk, some e⟩) ∧
    (∀ j, parse content = .ok j → jsGetField j "version" = .ok none →
      configResolved parse swcV st configRoot cacheDir disk
        = ⟨{ st with
              root := some configRoot,
              cachePath := some (cacheDir ++ "/swc-cache") },
            ⟨true, some (metadataStringify ("1-" ++ swcV)), []⟩, none⟩) := by
  constructor
  · intro e hparse
    unfold configResolved
    rw [hcache]
    simp only [List.length_nil, gt_iff_lt, lt_irrefl, if_false, hmeta, hparse]
  · intro j hparse hv
    unfold configResolved
    rw [hcache]
    simp only [List.length_nil, gt_iff_lt, lt_irrefl, if_false, hmeta, hparse, hv]
    rfl

/-- C10 witness: invalid JSON rejects with the parse error and leaves the
disk untouched; the non-record value `5` triggers the mismatch path. -/
theorem C10_witness :
    pstEmpty.cache = [] ∧
    diskStub.metadata = some "meta" ∧
    parseBad "meta" = .error "SyntaxError: Unexpected token" ∧
    parse5 "meta" = .ok (.num 5) ∧
    jsGetField (.num 5) "version" = .ok none ∧
    configResolved parseBad "v" pstEmpty "/r" "/c" diskStub
      = ⟨{ pstEmpty with
            root := some "/r",
            cachePath := some ("/c" ++ "/swc-cache") },
          diskStub, some "SyntaxError: Unexpected token"⟩ ∧
    configResolved parse5 "v" pstEmpty "/r" "/c" diskStub
      = ⟨{ pstEmpty with
            root := some "/r",
            cachePath := some ("/c" ++ "/swc-cache") },
          ⟨true, some (metadataStringify ("1-" ++ "v")), []⟩, none⟩ :=
  ⟨rfl, rfl, rfl, rfl, rfl,
    (C10_invalid_metadata_behavior parseBad "v" pstEmpty "/r" "/c" diskStub "meta"
        rfl rfl).1 "SyntaxError: Unexpected token" rfl,
    (C10_invalid_metadata_behavior parse5 "v" pstEmpty "/r" "/c" diskStub "meta"
        rfl rfl).2 (.num 5) rfl rfl⟩

end PluginModel
